import Mathlib

/-!
# Verification of the Taxi grid-world MDP builder

Shallow embedding of `src/gym/envs/toy_text/taxi.py` (class `TaxiEnv`).
The module selects, per configured location count `nL ∈ {2,4,5,6,8}`, a fixed
ASCII map and an ordered list of named locations, packs the state tuple
`(taxi_row, taxi_col, passenger_index, destination_index)` into a single
integer, and builds a complete deterministic transition table together with
an initial-state distribution.
-/

set_option maxRecDepth 2000

namespace Taxi

/-- The set of location counts the source's `__init__` has a branch for. -/
def supported (L : Nat) : Bool := L = 2 || L = 4 || L = 5 || L = 6 || L = 8

/-- Map template for `nL == 2` (source lines 58-67). -/
def MAP2 : List String :=
  [ "+---------+",
    "|A: | : : |",
    "| : : : : |",
    "| : : : : |",
    "| | : | : |",
    "| | : |B: |",
    "+---------+" ]

/-- Map template for `nL == 4`. -/
def MAP4 : List String :=
  [ "+---------+",
    "|A: | : :B|",
    "| : : : : |",
    "| : : : : |",
    "| | : | : |",
    "|C| : |D: |",
    "+---------+" ]

/-- Map template for `nL == 5`. -/
def MAP5 : List String :=
  [ "+---------+",
    "|A: | : :B|",
    "| : : : : |",
    "| : : : :C|",
    "| | : | : |",
    "|D| : |E: |",
    "+---------+" ]

/-- Map template for `nL == 6`. -/
def MAP6 : List String :=
  [ "+---------+",
    "|A: | : :B|",
    "| : : : : |",
    "| :C:D: : |",
    "| | : | : |",
    "|E| : |F: |",
    "+---------+" ]

/-- Map template for `nL == 8`. -/
def MAP8 : List String :=
  [ "+---------+",
    "|A: |B: :C|",
    "| :D: : : |",
    "| : : :E:F|",
    "| | : | : |",
    "|G| : |H: |",
    "+---------+" ]

/-- The `MAP` assigned by `__init__`'s `if nL == ...` chain; `none` when no
branch matches (in the source `MAP` is then left unbound and construction
crashes with `UnboundLocalError`). -/
def MAPfor (L : Nat) : Option (List String) :=
  if L = 2 then some MAP2
  else if L = 4 then some MAP4
  else if L = 5 then some MAP5
  else if L = 6 then some MAP6
  else if L = 8 then some MAP8
  else none

/-- The `self.locs` assigned by the same chain; `none` when no branch
matches. -/
def locsFor (L : Nat) : Option (List (Nat × Nat)) :=
  if L = 2 then some [(0,0), (4,3)]
  else if L = 4 then some [(0,0), (0,4), (4,0), (4,3)]
  else if L = 5 then some [(0,0), (0,4), (2,4), (4,0), (4,3)]
  else if L = 6 then some [(0,0), (0,4), (2,1), (2,2), (4,0), (4,3)]
  else if L = 8 then some [(0,0), (0,2), (1,1), (2,3), (2,4), (0,4), (4,0), (4,3)]
  else none

/-- Character grid `self.desc`: the selected map as a character grid. -/
def desc (L : Nat) : List (List Char) :=
  ((MAPfor L).getD []).map String.toList

/-- The selected location list (empty for unsupported `L`). -/
def locs (L : Nat) : List (Nat × Nat) := (locsFor L).getD []

/-- State count `nS` computed by `__init__`:
`nS = nR*nC*nL*(nL+1)*2` when `nL == 2`, else `nR*nC*nL*(nL+1)`. -/
def nS (L : Nat) : Nat :=
  if L = 2 then 5 * 5 * L * (L + 1) * 2 else 5 * 5 * L * (L + 1)

/-- Encoding `TaxiEnv.encode`: `((taxirow*5 + taxicol)*5 + passloc)*nL + destidx`. -/
def encode (L r c p d : Nat) : Nat :=
  ((r * 5 + c) * 5 + p) * L + d

/-- Decoding `TaxiEnv.decode`: successive mod/div by `nL`, 5, 5; the final quotient is
the row and the source asserts `0 <= i < 5` before returning, so an
out-of-range row yields a failure (`none`) rather than data. -/
def decode (L i : Nat) : Option (Nat × Nat × Nat × Nat) :=
  let d := i % L
  let i1 := i / L
  let p := i1 % 5
  let i2 := i1 / 5
  let c := i2 % 5
  let r := i2 / 5
  if r < 5 then some (r, c, p, d) else none

/-- Wall check `self.desc[1+row, 2*col+2] == b":"`: open passage east of cell
`(row, col)`. -/
def eastOpen (L r c : Nat) : Bool :=
  ((desc L).getD (1 + r) []).getD (2 * c + 2) ' ' = ':'

/-- Wall check `self.desc[1+row, 2*col] == b":"`: open passage west of cell
`(row, col)`. -/
def westOpen (L r c : Nat) : Bool :=
  ((desc L).getD (1 + r) []).getD (2 * c) ' ' = ':'

/-- The body of the per-(state, action) loop in `__init__`: starting from the
defaults `newrow, newcol, newpassidx = row, col, passidx`, `reward = -1`,
`done = False`, the two `if`/`elif` chains update them.  Returns
`(newrow, newcol, newpassidx, reward, done)`. -/
def transition (L r c p d a : Nat) : Nat × Nat × Nat × Int × Bool :=
  let nr : Nat := if a = 0 then min (r + 1) 4 else if a = 1 then r - 1 else r
  if a = 2 && eastOpen L r c then
    (nr, min (c + 1) 4, p, -1, false)
  else if a = 3 && westOpen L r c then
    (nr, c - 1, p, -1, false)
  else if a = 4 then
    if p < L && decide ((r, c) = (locs L).getD p (9, 9)) then
      (nr, c, L, -1, false)
    else
      (nr, c, p, -10, false)
  else if a = 5 then
    if decide ((r, c) = (locs L).getD d (9, 9)) && p = L then
      (nr, c, p, 20, true)
    else if decide ((r, c) ∈ locs L) && p = L then
      (nr, c, List.indexOf (r, c) (locs L), -1, false)
    else
      (nr, c, p, -10, false)
  else
    (nr, c, p, -1, false)

/-- The encoded successor state recorded for `(row, col, passidx, destidx)`
under action `a`: `self.encode(newrow, newcol, newpassidx, destidx)`. -/
def nextState (L r c p d a : Nat) : Nat :=
  let t := transition L r c p d a
  encode L t.1 t.2.1 t.2.2.1 d

/-- The reward recorded for `(row, col, passidx, destidx)` under action
`a`. -/
def reward (L r c p d a : Nat) : Int :=
  (transition L r c p d a).2.2.2.1

/-- The done flag recorded for `(row, col, passidx, destidx)` under action
`a`. -/
def isDone (L r c p d a : Nat) : Bool :=
  (transition L r c p d a).2.2.2.2

/-- All `(row, col, passidx, destidx)` tuples visited by the four nested
loops of `__init__`, in loop order. -/
def allTuples (L : Nat) : List (Nat × Nat × Nat × Nat) :=
  (List.range 5).flatMap fun r =>
    (List.range 5).flatMap fun c =>
      (List.range (L + 1)).flatMap fun p =>
        (List.range L).map fun d => (r, c, p, d)

/-- Tuple-level view of `encode`: the state index computed for a loop tuple
`(row, col, passidx, destidx)`. -/
def encodeT (L : Nat) (t : Nat × Nat × Nat × Nat) : Nat :=
  encode L t.1 t.2.1 t.2.2.1 t.2.2.2

/-- Loop condition `passidx < nL and passidx != destidx` guarding
`isd[state] += 1`. -/
def isContrib (L : Nat) (t : Nat × Nat × Nat × Nat) : Bool :=
  t.2.2.1 < L && t.2.2.1 ≠ t.2.2.2

/-- Transition table entry `P[s][a]`: the list of `(probability, next_state, reward, done)` tuples
appended for state index `s` and action `a`, in loop order.  One tuple with
probability `1.0` is appended per loop tuple whose encoding equals `s`. -/
def Pentry (L s a : Nat) : List (ℚ × Nat × Int × Bool) :=
  (allTuples L).filterMap fun t =>
    if encodeT L t = s then
      some (1, nextState L t.1 t.2.1 t.2.2.1 t.2.2.2 a,
            reward L t.1 t.2.1 t.2.2.1 t.2.2.2 a,
            isDone L t.1 t.2.1 t.2.2.1 t.2.2.2 a)
    else none

/-- Unnormalized entry `isd[s]`: the number of loop tuples with
`passidx < nL and passidx != destidx` whose encoding equals `s`. -/
def isdCount (L s : Nat) : Nat :=
  (allTuples L).countP fun t => decide (encodeT L t = s) && isContrib L t

/-- Normalizer `isd.sum()`: the sum of the unnormalized entries over the whole array of
size `nS`. -/
def totalIsd (L : Nat) : Nat :=
  ∑ s ∈ Finset.range (nS L), isdCount L s

/-- Normalized `isd /= isd.sum()`: the initial-state distribution. -/
def isdProb (L s : Nat) : ℚ :=
  (isdCount L s : ℚ) / (totalIsd L : ℚ)

/-- The loop tuples that contribute to `isd`, in loop order. -/
def contribList (L : Nat) : List (Nat × Nat × Nat × Nat) :=
  (allTuples L).filter (isContrib L)

/-- The state indices receiving initial mass, with multiplicity. -/
def imgList (L : Nat) : List Nat :=
  (contribList L).map (encodeT L)

/-- The `(passidx, destidx)` pairs visited by the two innermost loops of
`__init__`. -/
def pdPairs (L : Nat) : List (Nat × Nat) :=
  (List.range (L + 1)).flatMap fun p => (List.range L).map fun d => (p, d)

/-- Linear check that a list of naturals is strictly increasing. -/
def sortedLt : List Nat → Bool
  | [] => true
  | [_] => true
  | a :: b :: rest => a < b && sortedLt (b :: rest)

/-- Dropoff claim (C7) at one state: reward +20 and termination when carrying
the passenger on the destination; wrong-but-named location sets the passenger
index to that location's index, reward -1, episode continues; otherwise
reward -10 and no state change. -/
def dropoffClaim (L r c : Nat) : Nat × Nat → Prop
  | (p, d) =>
    (p = L ∧ (r, c) = (locs L).getD d (9, 9) →
        reward L r c p d 5 = 20 ∧ isDone L r c p d 5 = true) ∧
    (p = L ∧ (r, c) ≠ (locs L).getD d (9, 9) ∧ (r, c) ∈ locs L →
        (transition L r c p d 5).2.2.1 = List.indexOf (r, c) (locs L) ∧
          reward L r c p d 5 = -1 ∧ isDone L r c p d 5 = false) ∧
    (¬(p = L ∧ (r, c) ∈ locs L) →
        transition L r c p d 5 = (r, c, p, -10, false))

instance dropoffClaimDec (L r c : Nat) : DecidablePred (dropoffClaim L r c)
  | (p, d) => by unfold dropoffClaim; infer_instance

/-- Pickup claim (C8) at one state: on the waiting passenger's location the
passenger index becomes `L` with reward -1 and no termination; otherwise
reward -10 and no state change. -/
def pickupClaim (L r c : Nat) : Nat × Nat → Prop
  | (p, d) =>
    (p < L ∧ (r, c) = (locs L).getD p (9, 9) →
        transition L r c p d 4 = (r, c, L, -1, false)) ∧
    (¬(p < L ∧ (r, c) = (locs L).getD p (9, 9)) →
        transition L r c p d 4 = (r, c, p, -10, false))

instance pickupClaimDec (L r c : Nat) : DecidablePred (pickupClaim L r c)
  | (p, d) => by unfold pickupClaim; infer_instance

/-- Movement claim (C9) at one state: east/west move the column exactly when
the template marks an open passage, south/north only clamp the row, and the
two boundary cases named by the spec. -/
def movementClaim (L r c : Nat) : Nat × Nat → Prop
  | (p, d) =>
    (transition L r c p d 2).2.1 = (if eastOpen L r c then min (c + 1) 4 else c) ∧
    (transition L r c p d 3).2.1 = (if westOpen L r c then c - 1 else c) ∧
    transition L r c p d 0 = (min (r + 1) 4, c, p, -1, false) ∧
    transition L r c p d 1 = (r - 1, c, p, -1, false) ∧
    (r = 0 → transition L r c p d 1 = (0, c, p, -1, false)) ∧
    (c = 4 → (transition L r c p d 2).2.1 = 4)

instance movementClaimDec (L r c : Nat) : DecidablePred (movementClaim L r c)
  | (p, d) => by unfold movementClaim; infer_instance

/-- Generic shape of a `Pentry` list: its length counts the loop tuples whose
encoding matches. -/
theorem length_filterMap_guard {α β : Type} (l : List α) (p : α → Prop)
    [DecidablePred p] (g : α → β) :
    (l.filterMap fun t => if p t then some (g t) else none).length
      = l.countP fun t => decide (p t) := by
  induction l with
  | nil => rfl
  | cons x xs ih =>
    by_cases h : p x <;>
      simp [List.filterMap_cons, List.countP_cons, h, ih]

/-- Counting an element of `List.range`. -/
theorem count_range_eq (n a : Nat) :
    (List.range n).count a = if a < n then 1 else 0 := by
  by_cases h : a < n
  · rw [if_pos h]
    exact List.count_eq_one_of_mem (List.nodup_range n) (List.mem_range.mpr h)
  · rw [if_neg h]
    exact List.count_eq_zero_of_not_mem fun hm => h (List.mem_range.mp hm)

/-- Summing the multiplicities of a list over a range covering it gives its
length. -/
theorem sum_range_count (n : Nat) (l : List Nat) (h : ∀ x ∈ l, x < n) :
    ∑ s ∈ Finset.range n, l.count s = l.length := by
  induction l with
  | nil => simp
  | cons x xs ih =>
    have hx : x ∈ Finset.range n := Finset.mem_range.mpr (h x (List.mem_cons_self x xs))
    have h1 : ∀ s, (x :: xs).count s = xs.count s + if x = s then 1 else 0 := by
      intro s
      rw [List.count_cons]
      congr 1
      by_cases hxs : x = s <;> simp [hxs]
    rw [Finset.sum_congr rfl fun s _ => h1 s, Finset.sum_add_distrib,
        Finset.sum_ite_eq (Finset.range n) x fun _ => 1, if_pos hx,
        ih fun y hy => h y (List.mem_cons_of_mem x hy)]
    simp

/-- Decoding an encoded tuple, for in-range column, passenger and destination
slots. -/
theorem decode_encode {L r c p d : Nat} (hL : 0 < L) (hc : c < 5) (hp : p < 5)
    (hd : d < L) :
    decode L (encode L r c p d) = if r < 5 then some (r, c, p, d) else none := by
  have hm : (((r * 5 + c) * 5 + p) * L + d) % L = d := by
    rw [mul_comm, Nat.mul_add_mod, Nat.mod_eq_of_lt hd]
  have hdv : (((r * 5 + c) * 5 + p) * L + d) / L = (r * 5 + c) * 5 + p := by
    rw [mul_comm, Nat.mul_add_div hL, Nat.div_eq_of_lt hd, add_zero]
  simp only [decode, encode, hm, hdv]
  have h3 : ((r * 5 + c) * 5 + p) % 5 = p := by omega
  have h4 : ((r * 5 + c) * 5 + p) / 5 = r * 5 + c := by omega
  have h5 : (r * 5 + c) % 5 = c := by omega
  have h6 : (r * 5 + c) / 5 = r := by omega
  rw [h3, h4, h5, h6]

/-- A successful decode reconstructs the state index and yields in-range
components. -/
theorem decode_inv {L s r c p d : Nat} (hL : 0 < L)
    (h : decode L s = some (r, c, p, d)) :
    encode L r c p d = s ∧ r < 5 ∧ c < 5 ∧ p < 5 ∧ d < L := by
  simp only [decode] at h
  split at h
  case isTrue h5 =>
    have h' : s / L / 5 / 5 = r ∧ s / L / 5 % 5 = c ∧ s / L % 5 = p ∧ s % L = d := by
      simpa [Prod.ext_iff] using h
    obtain ⟨hr, hc, hp, hd⟩ := h'
    subst hr hc hp hd
    refine ⟨?_, h5, Nat.mod_lt _ (by omega), Nat.mod_lt _ (by omega), Nat.mod_lt _ hL⟩
    show ((s / L / 5 / 5 * 5 + s / L / 5 % 5) * 5 + s / L % 5) * L + s % L = s
    have e1 : s / L / 5 / 5 * 5 + s / L / 5 % 5 = s / L / 5 := by omega
    have e2 : s / L / 5 * 5 + s / L % 5 = s / L := by omega
    rw [e1, e2, mul_comm]
    exact Nat.div_add_mod s L
  case isFalse => exact absurd h (by simp)

/-- Membership in the loop-tuple list is exactly the loop ranges. -/
theorem mem_allTuples {L r c p d : Nat} :
    (r, c, p, d) ∈ allTuples L ↔ r < 5 ∧ c < 5 ∧ p < L + 1 ∧ d < L := by
  simp [allTuples, List.mem_flatMap, List.mem_map, List.mem_range, Prod.ext_iff]
  aesop

/-- C1: the spec claims `decode (encode t) = t` for every valid tuple under
every supported location count.  The code violates this: for `L = 5` the
valid tuple `(0, 0, 5, 0)` (passenger in taxi) encodes to the same index as
`(0, 1, 0, 0)`, and decoding returns the latter. -/
theorem decode_encode_roundtrip_fails_at_five :
    encode 5 0 0 5 0 = encode 5 0 1 0 0 ∧
      decode 5 (encode 5 0 0 5 0) = some (0, 1, 0, 0) ∧
      some (0, 1, 0, 0) ≠ some ((0 : Nat), (0 : Nat), (5 : Nat), (0 : Nat)) := by
  decide

/-- C2 counterexample: for `L = 2` the code computes `nS = 300`, not the
`5*5*(L+1)*L = 150` the claim states. -/
theorem nS_two_ne_spec_formula : nS 2 ≠ 5 * 5 * (2 + 1) * 2 := by
  decide

/-- C2 amended: `nS = 5*5*(L+1)*L` holds for `L ∈ {4,5,6,8}` (in particular
`nS = 500` for `L = 4`), but the code doubles the count for `L = 2`. -/
theorem nS_values :
    nS 4 = 5 * 5 * (4 + 1) * 4 ∧ nS 5 = 5 * 5 * (5 + 1) * 5 ∧
      nS 6 = 5 * 5 * (6 + 1) * 6 ∧ nS 8 = 5 * 5 * (8 + 1) * 8 ∧
      nS 4 = 500 ∧ nS 2 = 2 * (5 * 5 * (2 + 1) * 2) := by
  decide

/-- C4: for an unsupported location count no branch of the `if nL == ...`
chain assigns a map or a location list, so construction cannot proceed (in
the source it dies with `UnboundLocalError`, not with a descriptive
configuration error). -/
theorem unsupported_L_no_configuration (L : Nat) (h : supported L = false) :
    MAPfor L = none ∧ locsFor L = none := by
  simp only [supported, Bool.or_eq_false_iff, decide_eq_false_iff_not] at h
  obtain ⟨⟨⟨⟨h2, h4⟩, h5⟩, h6⟩, h8⟩ := h
  simp [MAPfor, locsFor, h2, h4, h5, h6, h8]

/-- C4 witness: location count 3 selects no configuration. -/
theorem unsupported_L_no_configuration_witness :
    MAPfor 3 = none ∧ locsFor 3 = none :=
  unsupported_L_no_configuration 3 (by decide)

/-- C5: the spec claims decode succeeds on every state index below the total
state count `5*5*(L+1)*L`.  For `L = 5` the index `629 < 750` is the encoding
of the valid tuple `(4, 4, 5, 4)` produced by the constructor loop itself,
yet decode's sanity assertion `0 <= i < 5` fails on it (the decoded row slot
is 5). -/
theorem decode_fails_on_valid_index :
    nS 5 = 750 ∧ encode 5 4 4 5 4 = 629 ∧ 629 < nS 5 ∧
      decode 5 629 = none := by
  decide

/-- C7: dropoff (action 5) gives reward +20 and ends the episode exactly when
the passenger is in the taxi (`passidx = L`) and the taxi stands on the
destination location; dropping at a different named location while carrying
the passenger sets the passenger index to that location's index with reward
-1 and the episode continuing; any other dropoff is illegal, leaving the
state unchanged with reward -10. -/
theorem dropoff_semantics :
    ∀ L, supported L = true → ∀ r < 5, ∀ c < 5, ∀ q ∈ pdPairs L,
      dropoffClaim L r c q := by
  intro L hL
  simp only [supported, Bool.or_eq_true, decide_eq_true_eq] at hL
  rcases hL with ((((h | h) | h) | h) | h) <;> subst h <;> decide

/-- C7 witness: with `L = 4`, dropoff at location A = (0,0) with the
passenger aboard and destination 0 rewards +20 and terminates. -/
theorem dropoff_semantics_witness :
    reward 4 0 0 4 0 5 = 20 ∧ isDone 4 0 0 4 0 5 = true :=
  (dropoff_semantics 4 (by decide) 0 (by decide) 0 (by decide) (4, 0)
    (by decide)).1 (by decide)

/-- C8: pickup (action 4) sets the passenger index to `L` with reward -1 and
no termination exactly when the taxi stands on the waiting passenger's
location; otherwise it is illegal, leaving the state unchanged with reward
-10. -/
theorem pickup_semantics :
    ∀ L, supported L = true → ∀ r < 5, ∀ c < 5, ∀ q ∈ pdPairs L,
      pickupClaim L r c q := by
  intro L hL
  simp only [supported, Bool.or_eq_true, decide_eq_true_eq] at hL
  rcases hL with ((((h | h) | h) | h) | h) <;> subst h <;> decide

/-- C8 witness: with `L = 4`, pickup at location A = (0,0) with the waiting
passenger there transitions the passenger index to 4 with reward -1, and
pickup one cell away is illegal with reward -10 and no state change. -/
theorem pickup_semantics_witness :
    transition 4 0 0 0 0 4 = (0, 0, 4, -1, false) ∧
      transition 4 2 2 0 0 4 = (2, 2, 0, -10, false) :=
  ⟨(pickup_semantics 4 (by decide) 0 (by decide) 0 (by decide) (0, 0)
      (by decide)).1 (by decide),
    (pickup_semantics 4 (by decide) 2 (by decide) 2 (by decide) (0, 0)
      (by decide)).2 (by decide)⟩

/-- C9: east (2) and west (3) move the column exactly when the map template
marks an open passage `:` in that direction (otherwise the column is
unchanged), while south (0) and north (1) are never wall-blocked and only
clamp the row to `[0,4]`; in particular north from row 0 stays at row 0 with
reward -1 and no termination, and east against the right boundary leaves the
column unchanged. -/
theorem movement_semantics :
    ∀ L, supported L = true → ∀ r < 5, ∀ c < 5, ∀ q ∈ pdPairs L,
      movementClaim L r c q := by
  intro L hL
  simp only [supported, Bool.or_eq_true, decide_eq_true_eq] at hL
  rcases hL with ((((h | h) | h) | h) | h) <;> subst h <;> decide

/-- C9 witness: with `L = 4`, north from row 0 keeps row 0, reward -1, not
done. -/
theorem movement_semantics_witness :
    transition 4 0 0 0 0 1 = (0, 0, 0, -1, false) :=
  (movement_semantics 4 (by decide) 0 (by decide) 0 (by decide) (0, 0)
    (by decide)).2.2.2.2.1 rfl

/-- The length of a transition table entry counts the loop tuples encoding to
its state index. -/
theorem Pentry_length_eq_count (L s a : Nat) :
    (Pentry L s a).length = ((allTuples L).map (encodeT L)).count s := by
  unfold Pentry
  rw [length_filterMap_guard, List.count_eq_countP, List.countP_map]
  exact List.countP_congr fun t ht => by simp [Function.comp, beq_iff_eq]

/-- C3 counterexample: for `L = 2` the in-range state index 6 (`6 < nS 2`) is
not the encoding of any loop tuple, so its transition list for action 0 is
empty instead of holding exactly one probability-1 tuple. -/
theorem Pentry_empty_at_gap_state :
    6 < nS 2 ∧ Pentry 2 6 0 = [] := by decide

/-- C3 amended: every tuple present in any transition table entry has
probability exactly 1.0 (for every location count), and for `L = 4` every
in-range `P[s][a]` holds exactly one tuple; for the other supported location
counts some in-range entries are empty (and for `L ∈ {5,6,8}` some hold two
tuples). -/
theorem Pentry_prob_one_and_unique_for_L4 :
    (∀ L s a : Nat, ∀ e ∈ Pentry L s a, e.1 = 1) ∧
      (∀ s < 500, ∀ a : Nat, (Pentry 4 s a).length = 1) := by
  constructor
  · intro L s a e he
    unfold Pentry at he
    rw [List.mem_filterMap] at he
    obtain ⟨t, ht, hf⟩ := he
    by_cases hts : encodeT L t = s
    · rw [if_pos hts] at hf
      cases hf
      rfl
    · rw [if_neg hts] at hf
      cases hf
  · intro s hs a
    rw [Pentry_length_eq_count]
    have hmap : (allTuples 4).map (encodeT 4) = List.range 500 := by decide
    rw [hmap, count_range_eq, if_pos hs]

/-- C3 witness: for `L = 4`, state 0, action 0 the single recorded tuple is
`(1.0, encode(1,0,0,0), -1, False)` and its probability is 1. -/
theorem Pentry_prob_one_and_unique_for_L4_witness :
    ((1 : ℚ), (100 : Nat), (-1 : Int), false).1 = (1 : ℚ) ∧
      (Pentry 4 0 0).length = 1 :=
  ⟨Pentry_prob_one_and_unique_for_L4.1 4 0 0 (1, 100, -1, false) (by decide),
    Pentry_prob_one_and_unique_for_L4.2 0 (by decide) 0⟩

/-- Encoding is congruent to the destination slot modulo `L`. -/
theorem encode_mod (L r c p d : Nat) : encode L r c p d % L = d % L := by
  unfold encode
  rw [mul_comm, Nat.mul_add_mod]

/-- C10: every recorded transition preserves the destination index: the
successor state of any tuple in `P[s][a]` is congruent to `s` modulo `L`,
i.e. it is encoded with the same destination slot as the source state. -/
theorem destination_preserved :
    ∀ L s a : Nat, ∀ e ∈ Pentry L s a, e.2.1 % L = s % L := by
  intro L s a e he
  unfold Pentry at he
  rw [List.mem_filterMap] at he
  obtain ⟨t, ht, hf⟩ := he
  by_cases hts : encodeT L t = s
  · rw [if_pos hts] at hf
    cases hf
    show nextState L t.1 t.2.1 t.2.2.1 t.2.2.2 a % L = s % L
    unfold nextState
    rw [encode_mod, ← hts]
    unfold encodeT
    rw [encode_mod]
  · rw [if_neg hts] at hf
    cases hf

/-- C10 witness: the successor 100 recorded for state 0 under action 0 with
`L = 4` keeps destination slot `0 = 0 % 4`. -/
theorem destination_preserved_witness : (100 : Nat) % 4 = 0 % 4 :=
  destination_preserved 4 0 0 (1, 100, -1, false) (by decide)

/-- Unnormalized `isd` entries count occurrences in the contributing-image
list. -/
theorem isdCount_eq_count (L s : Nat) :
    isdCount L s = (imgList L).count s := by
  unfold isdCount imgList contribList
  rw [List.count_eq_countP, List.countP_map, List.countP_filter]
  exact List.countP_congr fun t ht => by
    simp [Function.comp, beq_iff_eq, Bool.and_comm]

/-- The `isd` array sums to the number of contributing loop tuples. -/
theorem totalIsd_eq_length (L : Nat) (h : ∀ x ∈ imgList L, x < nS L) :
    totalIsd L = (imgList L).length := by
  unfold totalIsd
  rw [Finset.sum_congr rfl fun s _ => isdCount_eq_count L s]
  exact sum_range_count (nS L) (imgList L) h

/-- The encoding of any loop tuple lies below the allocated table size. -/
theorem encode_lt_nS {L r c p d : Nat} (hsup : supported L = true)
    (hr : r < 5) (hc : c < 5) (hp : p < L + 1) (hd : d < L) :
    encode L r c p d < nS L := by
  simp only [supported, Bool.or_eq_true, decide_eq_true_eq] at hsup
  unfold encode nS
  rcases hsup with ((((h | h) | h) | h) | h) <;> subst h <;> simp <;> omega

/-- Every contributing state index lies below the allocated table size. -/
theorem imgList_lt_nS {L : Nat} (hsup : supported L = true) :
    ∀ x ∈ imgList L, x < nS L := by
  intro x hx
  unfold imgList contribList at hx
  rw [List.mem_map] at hx
  obtain ⟨t, htc, rfl⟩ := hx
  rw [List.mem_filter] at htc
  obtain ⟨r, c, p, d⟩ := t
  have hb := mem_allTuples.mp htc.1
  exact encode_lt_nS hsup hb.1 hb.2.1 hb.2.2.1 hb.2.2.2

set_option maxRecDepth 6000 in
/-- The `isd` normalizer for each supported location count. -/
theorem totalIsd_values :
    totalIsd 2 = 50 ∧ totalIsd 4 = 300 ∧ totalIsd 5 = 500 ∧
      totalIsd 6 = 750 ∧ totalIsd 8 = 1400 := by
  refine ⟨?_, ?_, ?_, ?_, ?_⟩ <;>
  · rw [totalIsd_eq_length _ (imgList_lt_nS (by decide))]
    decide

/-- A strictly increasing list is a chain under `<`. -/
theorem sortedLt_chain :
    ∀ l : List Nat, sortedLt l = true → List.Chain' (· < ·) l
  | [], _ => by simp
  | [_], _ => by simp
  | a :: b :: rest, h => by
    unfold sortedLt at h
    rw [Bool.and_eq_true] at h
    rw [List.chain'_cons]
    exact ⟨by simpa using h.1, sortedLt_chain (b :: rest) h.2⟩

/-- A strictly increasing list has no duplicates. -/
theorem sortedLt_nodup (l : List Nat) (h : sortedLt l = true) : l.Nodup :=
  (List.chain'_iff_pairwise.mp (sortedLt_chain l h)).imp fun hab =>
    Nat.ne_of_lt hab

set_option maxRecDepth 6000 in
/-- For location counts at most 5 the contributing states are pairwise
distinct. -/
theorem imgList_nodups :
    (imgList 2).Nodup ∧ (imgList 4).Nodup ∧ (imgList 5).Nodup :=
  ⟨sortedLt_nodup _ (by decide), sortedLt_nodup _ (by decide),
    sortedLt_nodup _ (by decide)⟩

/-- For a location count at most 5, the unnormalized `isd` entry of a state
is 1 when the state decodes to a contributing tuple and 0 otherwise. -/
theorem isdCount_char {L : Nat} (hL : 0 < L) (hL5 : L ≤ 5)
    (hnd : (imgList L).Nodup) (s : Nat) :
    isdCount L s = match decode L s with
      | some (_, _, p, d) => if p < L ∧ p ≠ d then 1 else 0
      | none => 0 := by
  rw [isdCount_eq_count]
  cases hdec : decode L s with
  | none =>
    rw [List.count_eq_zero]
    intro hmem
    unfold imgList contribList at hmem
    rw [List.mem_map] at hmem
    obtain ⟨t, htc, henc⟩ := hmem
    rw [List.mem_filter] at htc
    obtain ⟨r, c, p, d⟩ := t
    have hb := mem_allTuples.mp htc.1
    have hcontrib : p < L ∧ p ≠ d := by simpa [isContrib] using htc.2
    have hp5 : p < 5 := lt_of_lt_of_le hcontrib.1 hL5
    have hde := decode_encode (r := r) hL hb.2.1 hp5 hb.2.2.2
    rw [if_pos hb.1] at hde
    have henc' : encode L r c p d = s := henc
    rw [← henc', hde] at hdec
    cases hdec
  | some q =>
    obtain ⟨r, c, p, d⟩ := q
    obtain ⟨henc, hr, hc, hp, hd⟩ := decode_inv hL hdec
    show List.count s (imgList L) = if p < L ∧ p ≠ d then 1 else 0
    by_cases hcond : p < L ∧ p ≠ d
    · rw [if_pos hcond]
      apply List.count_eq_one_of_mem hnd
      unfold imgList contribList
      rw [List.mem_map]
      refine ⟨(r, c, p, d), ?_, henc⟩
      rw [List.mem_filter]
      refine ⟨mem_allTuples.mpr ⟨hr, hc, by omega, hd⟩, ?_⟩
      simp [isContrib, hcond.1, hcond.2]
    · rw [if_neg hcond, List.count_eq_zero]
      intro hmem
      unfold imgList contribList at hmem
      rw [List.mem_map] at hmem
      obtain ⟨t, htc, henc2⟩ := hmem
      rw [List.mem_filter] at htc
      obtain ⟨r2, c2, p2, d2⟩ := t
      have hb := mem_allTuples.mp htc.1
      have hcon2 : p2 < L ∧ p2 ≠ d2 := by simpa [isContrib] using htc.2
      have hp25 : p2 < 5 := lt_of_lt_of_le hcon2.1 hL5
      have hde := decode_encode (r := r2) hL hb.2.1 hp25 hb.2.2.2
      rw [if_pos hb.1] at hde
      have henc2' : encode L r2 c2 p2 d2 = s := henc2
      rw [← henc2', hde] at hdec
      have : r2 = r ∧ c2 = c ∧ p2 = p ∧ d2 = d := by
        simpa [Prod.ext_iff] using hdec
      obtain ⟨rfl, rfl, rfl, rfl⟩ := this
      exact hcond hcon2

/-- A nonzero `isd` normalizer makes the normalized distribution sum to 1. -/
theorem sum_isdProb_eq_one (L : Nat) (hT : totalIsd L ≠ 0) :
    ∑ s ∈ Finset.range (nS L), isdProb L s = 1 := by
  unfold isdProb
  rw [← Finset.sum_div, ← Nat.cast_sum, ← totalIsd]
  exact div_self (Nat.cast_ne_zero.mpr hT)

/-- Pointwise characterization of the normalized distribution for a location
count at most 5. -/
theorem isdProb_char_of {L : Nat} (hL : 0 < L) (hL5 : L ≤ 5)
    (hnd : (imgList L).Nodup) (hT : totalIsd L = 25 * L * (L - 1)) (s : Nat) :
    isdProb L s = match decode L s with
      | some (_, _, p, d) =>
          if p < L ∧ p ≠ d then ((25 * L * (L - 1) : Nat) : ℚ)⁻¹ else 0
      | none => 0 := by
  unfold isdProb
  rw [isdCount_char hL hL5 hnd, hT]
  cases hdec : decode L s with
  | none =>
    show ((0 : Nat) : ℚ) / ((25 * L * (L - 1) : Nat) : ℚ) = 0
    simp
  | some q =>
    obtain ⟨r, c, p, d⟩ := q
    show ((if p < L ∧ p ≠ d then 1 else 0 : Nat) : ℚ) / ((25 * L * (L - 1) : Nat) : ℚ)
        = if p < L ∧ p ≠ d then ((25 * L * (L - 1) : Nat) : ℚ)⁻¹ else 0
    by_cases hcond : p < L ∧ p ≠ d
    · rw [if_pos hcond, if_pos hcond]
      simp [one_div]
    · rw [if_neg hcond, if_neg hcond]
      simp

set_option maxRecDepth 6000 in
/-- C6 counterexample: the claim promises zero initial probability whenever
the decoded passenger index equals the decoded destination index, but for
`L = 6` state 30 decodes to passenger 0 at destination 0 and still receives
positive mass (the colliding tuple `(0, 0, 5, 0)` contributes it). -/
theorem isdProb_nonzero_at_pass_eq_dest :
    decode 6 30 = some (0, 1, 0, 0) ∧ isdProb 6 30 ≠ 0 := by
  constructor
  · decide
  · have h1 : isdCount 6 30 = 1 := by decide
    have hT : totalIsd 6 = 750 := totalIsd_values.2.2.2.1
    unfold isdProb
    rw [h1, hT]
    norm_num

/-- C6 amended: the initial-state distribution always sums to exactly 1, and
for `L ∈ {2,4,5}` it is uniform with mass `1/(25*L*(L-1))` exactly on the
states decoding to a passenger index `< L` differing from the destination
index, zero elsewhere; for `L ∈ {6,8}` normalization still holds but
uniformity and the zero-at-`p = d` guarantee fail on colliding states. -/
theorem isd_distribution_characterization :
    (∀ L, supported L = true → ∑ s ∈ Finset.range (nS L), isdProb L s = 1) ∧
      (∀ L, L = 2 ∨ L = 4 ∨ L = 5 → ∀ s : Nat,
        isdProb L s = match decode L s with
          | some (_, _, p, d) =>
              if p < L ∧ p ≠ d then ((25 * L * (L - 1) : Nat) : ℚ)⁻¹ else 0
          | none => 0) := by
  constructor
  · intro L hL
    simp only [supported, Bool.or_eq_true, decide_eq_true_eq] at hL
    obtain ⟨h2, h4, h5, h6, h8⟩ := totalIsd_values
    rcases hL with ((((h | h) | h) | h) | h) <;> subst h <;>
      apply sum_isdProb_eq_one <;> simp [h2, h4, h5, h6, h8]
  · intro L hL s
    obtain ⟨h2, h4, h5, _, _⟩ := totalIsd_values
    obtain ⟨n2, n4, n5⟩ := imgList_nodups
    rcases hL with h | h | h <;> subst h
    · exact isdProb_char_of (by norm_num) (by norm_num) n2 (by omega) s
    · exact isdProb_char_of (by norm_num) (by norm_num) n4 (by omega) s
    · exact isdProb_char_of (by norm_num) (by norm_num) n5 (by omega) s

/-- C6 witness: for `L = 4` the distribution sums to 1 and state 1, which
decodes to passenger 0 bound for destination 1, has mass `1/300`. -/
theorem isd_distribution_characterization_witness :
    (∑ s ∈ Finset.range (nS 4), isdProb 4 s = 1) ∧
      isdProb 4 1 = ((25 * 4 * (4 - 1) : Nat) : ℚ)⁻¹ :=
  ⟨isd_distribution_characterization.1 4 (by decide), by
    have h := isd_distribution_characterization.2 4 (Or.inr (Or.inl rfl)) 1
    rw [(by decide : decode 4 1 = some (0, 0, 0, 1))] at h
    rw [h]
    norm_num⟩

end Taxi
